import Mathlib

/-!
Verification development for the pypbt property-based-testing library.

The definitions below are a shallow embedding, translated from the Python
sources `src/pypbt/domain.py`, `src/pypbt/quantifiers.py`,
`src/pypbt/quantifier.py` and `src/pypbt/runner.py`:

* Python machine integers are `Int`/`Nat` (Python ints are unbounded).
* Fallible Python code (raised exceptions) is `Except PyErr`.
* The process-wide Mersenne-Twister PRNG is modelled by an explicit
  deterministic generator state (`PRNG`, a linear congruential generator
  stands in for the Mersenne Twister; only determinism of the primitives
  matters for the claims, not their distribution), threaded through every
  sampling step exactly where the Python code calls `_random`.
* Lazy iterators are modelled as step machines: `ItState` is the state of a
  canonical iterator, `iterNext` performs one `next()` call, and `iterTake`
  pulls up to `n` samples, recording whether the iterator was still running,
  raised `StopIteration`, or raised another exception (`Term`).
-/

namespace PyPbt

/-- Python exceptions that the embedded code can raise. -/
inductive PyErr
  | typeError
  | notImplementedError
  | nameError
  | valueError
  | recursionError
  | runtimeError
deriving DecidableEq, Repr

/-- Python values that flow through the embedded domains and predicates. -/
inductive Val
  | int (n : Int)
  | bool (b : Bool)
  | str (s : String)
  | tup (vs : List Val)

/-- Python truthiness (`bool(v)`) for the embedded values:
zero ints, `False`, the empty string and the empty tuple are falsy. -/
def pyTruthy : Val → Bool
  | .int n => decide (n ≠ 0)
  | .bool b => b
  | .str s => !s.isEmpty
  | .tup vs => !vs.isEmpty

/-- An exception value thrown by a user predicate (opaque payload). -/
structure Exc where
  code : Nat
deriving DecidableEq, Repr

/-- The variable environment: an insertion-ordered mapping from variable
names to values, as a Python `dict` (`quantifiers.py`, `Env`). -/
abbrev Env := List (String × Val)

/-- `env[k]` lookup. -/
def lookupEnv : Env → String → Option Val
  | [], _ => none
  | (k, v) :: rest, k' => if k = k' then some v else lookupEnv rest k'

/-- `{**env, k: v}`: replaces the value at `k` in place if the key exists,
otherwise appends the new binding at the end (Python dict update order). -/
def envSet : Env → String → Val → Env
  | [], k, v => [(k, v)]
  | (k', v') :: rest, k, v =>
      if k' = k then (k', v) :: rest else (k', v') :: envSet rest k v

/-- Outcome of checking one sample (`quantifiers.py`, `CheckResult`):
`Predicate.__call__` yields either the predicate's own truthy return value,
a `CounterExample(env)`, or a `PredicateError(exc, env)`. -/
inductive CheckResult
  | value (v : Val)
  | counterExample (env : Env)
  | predicateError (e : Exc) (env : Env)

/-- Python truthiness of a `CheckResult`: `CounterExample.__bool__` and
`PredicateError.__bool__` both return `False`; a raw predicate return value
keeps its own truthiness. -/
def resultTruthy : CheckResult → Bool
  | .value v => pyTruthy v
  | .counterExample _ => false
  | .predicateError _ _ => false

/-- The runner's per-outcome classification (`runner.py`,
`PyPbtRunner.do_test`, `if result:`): a sample counts as passing exactly
when the outcome object is truthy. -/
def doTestClassify (r : CheckResult) : Bool := resultTruthy r

/-- A user predicate function: called on the environment, it either returns
a value or raises. -/
abbrev PredFun := Env → Except Exc Val

/-- Python's `x or y`: returns `x` when `x` is truthy, else `y`.  Models
`self.pred(**env) or CounterExample(env)` in `Predicate.__call__`. -/
def pyOrResult (v : Val) (alt : CheckResult) : CheckResult :=
  if pyTruthy v then .value v else alt

/-- `Predicate.__call__` (`quantifiers.py` lines 155-160): call
`self.pred(**env)`, replace a falsy return by `CounterExample(env)`, wrap a
raised exception as `PredicateError(e, env)`, and yield the single result. -/
def predicateCall (pred : PredFun) (env : Env) : List CheckResult :=
  match pred env with
  | .ok v => [pyOrResult v (.counterExample env)]
  | .error e => [.predicateError e env]

/-! ## The pseudo-random generator (`domain.py` lines 29-41)

The Python module keeps one process-wide `random.Random` instance.  We model
its state explicitly; a linear congruential generator stands in for the
Mersenne Twister — the claims only depend on the primitives being
deterministic functions of the state. -/

/-- State of the shared pseudo-random generator (`_random` in `domain.py`). -/
structure PRNG where
  st : Nat
deriving DecidableEq, Repr

/-- One raw draw from the generator. -/
def prngNext (g : PRNG) : Nat × PRNG :=
  let s := (g.st * 1103515245 + 12345) % 2147483648
  (s, ⟨s⟩)

/-- `_random.seed(s)`: the seed fully determines the new generator state,
erasing whatever state was there before. -/
def mkPRNG (s : Nat) : PRNG := ⟨s % 2147483648⟩

/-- Draw a natural number below `n` (used for `choice` and `sample`). -/
def randNat (g : PRNG) (n : Nat) : Nat × PRNG :=
  let (r, g') := prngNext g
  (r % n, g')

/-- `_random.randint(a, b)`: uniform on the closed interval `[a, b]`;
raises `ValueError` when `a > b`. -/
def randint (a b : Int) (g : PRNG) : Except PyErr (Int × PRNG) :=
  if b < a then .error .valueError
  else
    let (r, g') := randNat g (b - a + 1).toNat
    .ok (a + (r : Int), g')

/-- `_random.sample(range(n), k := n)` helper: pick and remove one element
`k` times from a pool of indices. -/
def permSampleAux : Nat → List Nat → PRNG → List Nat × PRNG
  | 0, _, g => ([], g)
  | k + 1, pool, g =>
      let (i, g') := randNat g pool.length
      let x := pool.getD i 0
      let (rest, g'') := permSampleAux k (pool.eraseIdx i) g'
      (x :: rest, g'')

/-- `_random.sample(range(n), k := n)`: a random permutation of `0..n-1`,
as used by `DomainUnion.__iter__`. -/
def permSample (n : Nat) (g : PRNG) : List Nat × PRNG :=
  permSampleAux n (List.range n) g

/-! ## The domain algebra (`domain.py`)

`Dom` covers the constructors of `domain.py` that the claims quantify over:
`Int`, `Boolean`, `DomainSingleton`, `DomainFromIterable`, `DomainUnion`
(already flattened, as `DomainUnion.__init__` stores it), `Tuple` and
`DomainLimit`. -/

inductive Dom
  | int (a b : Int)
  | bool
  | singleton (v : Val)
  | fromIterable (elems : List Val) (exh : Bool)
  | union (alts : List Dom)
  | tup (comps : List Dom)
  | limit (delegate : Dom) (n : Nat)

/-- The operand list a domain contributes to a union: `DomainUnion.__init__`
flattens one level of nested unions. -/
def unionOperands : Dom → List Dom
  | .union ds => ds
  | d => [d]

/-- `a | b` (`Domain.__or__` → `DomainUnion.__init__`): the operands of
both sides are concatenated into one flat alternative list. -/
def mkUnion (a b : Dom) : Dom := .union (unionOperands a ++ unionOperands b)

/-- `d.that(samples_limit := n)` (`Domain.that` → `DomainLimit`). -/
def that (d : Dom) (n : Nat) : Dom := .limit d n

mutual
/-- The `is_exhaustible` attribute of each domain (`domain.py`): `False`
from the `Domain` base class unless the concrete class sets it.  `Int`
never sets it; `Boolean` and `DomainSingleton` set `True`;
`DomainFromIterable` takes it as a constructor argument; `DomainUnion`
computes `all(d.is_exhaustible for d in self.domains)`; `Tuple` and
`DomainLimit` never set it and inherit `False`. -/
def isExh : Dom → Bool
  | .int _ _ => false
  | .bool => true
  | .singleton _ => true
  | .fromIterable _ e => e
  | .union ds => isExhList ds
  | .tup _ => false
  | .limit _ _ => false

/-- `all(d.is_exhaustible for d in ds)`. -/
def isExhList : List Dom → Bool
  | [] => true
  | d :: ds => isExh d && isExhList ds
end

/-- Length of Python's `zip(*ls)`: the minimum of the row lengths (zero
when there are no rows, as `zip()` yields nothing). -/
def zipCount : List (List Val) → Nat
  | [] => 0
  | l :: ls => ls.foldl (fun m x => min m x.length) l.length

/-- Python's `zip(*ls)`: the pointwise zip of the rows, terminating with
the shortest row; row `i` of the result is the tuple of the `i`-th elements. -/
def zipAll (ls : List (List Val)) : List Val :=
  (List.range (zipCount ls)).map (fun i => Val.tup (ls.map (fun l => l.getD i (Val.int 0))))

mutual
/-- The `Domain.exhaustible` property (`domain.py` lines 137-154): raises
`TypeError` unless the domain is marked exhaustible, otherwise calls
`exhaustible_iter()`. -/
def exhaustibleProp (d : Dom) : Except PyErr (List Val) :=
  if isExh d then exhIter d else .error .typeError

/-- `exhaustible_iter()` of each concrete class.  `Int`, `DomainUnion` and
`DomainLimit` never override it, so the base-class method runs and raises
`NotImplementedError`.  `Boolean` yields `False, True`; `DomainSingleton`
yields its element; `DomainFromIterable` returns `iter(self.iterable)`;
`Tuple.exhaustible_iter` first checks that every component is marked
exhaustible (raising `TypeError` otherwise), then requests each component's
`exhaustible` property and returns their pointwise zip. -/
def exhIter : Dom → Except PyErr (List Val)
  | .int _ _ => .error .notImplementedError
  | .bool => .ok [.bool false, .bool true]
  | .singleton v => .ok [v]
  | .fromIterable l _ => .ok l
  | .union _ => .error .notImplementedError
  | .tup ds =>
      if ds.any (fun d => !(isExh d)) then .error .typeError
      else
        match exhPropList ds with
        | .error e => .error e
        | .ok ls => .ok (zipAll ls)
  | .limit _ _ => .error .notImplementedError

/-- `[domain.exhaustible for domain in ds]`, propagating the first raised
exception. -/
def exhPropList : List Dom → Except PyErr (List (List Val))
  | [] => .ok []
  | d :: ds =>
      match exhaustibleProp d with
      | .error e => .error e
      | .ok l =>
          match exhPropList ds with
          | .error e => .error e
          | .ok ls => .ok (l :: ls)
end

/-! ## Canonical iterators as step machines

`Domain.__iter__` of each class returns a lazy generator.  `ItState` is the
internal state of such a generator, `iterNext` performs one `next()` call
(returning the yielded value, `StopIteration`, or a raised exception
together with the successor state and PRNG), and `iterTake` pulls up to `n`
samples. -/

/-- Internal state of a canonical iterator. -/
inductive ItState
  | intSt (a b : Int) (looping : Bool)
  | boolSt
  | singletonSt (v : Val)
  | fromItSt (pending : List Val) (exh : Bool)
  | unionSt (doms : List Dom) (its : List ItState)
  | tupSt (its : List ItState)
  | limitSt (inner : ItState) (remaining : Nat)

instance : Inhabited ItState := ⟨.boolSt⟩

/-- Result of one `next()` call. -/
inductive StepRes
  | val (v : Val)
  | stop
  | err (e : PyErr)

/-- How a finite pull of samples ended: still running, `StopIteration`, or
some other exception. -/
inductive Term
  | more
  | stopped
  | errored (e : PyErr)
deriving DecidableEq, Repr

mutual
/-- `iter(domain)`: the fresh canonical iterator of each domain. -/
def initState : Dom → ItState
  | .int a b => .intSt a b false
  | .bool => .boolSt
  | .singleton v => .singletonSt v
  | .fromIterable l e => .fromItSt l e
  | .union ds => .unionSt ds (initStateList ds)
  | .tup ds => .tupSt (initStateList ds)
  | .limit d n => .limitSt (initState d) n

/-- `[iter(domain) for domain in ds]`. -/
def initStateList : List Dom → List ItState
  | [] => []
  | d :: ds => initState d :: initStateList ds
end

/-- One draw of the `while True: yield _random.randint(min, max)` loop of
`Int.__iter__`. -/
def intDraw (a b : Int) (g : PRNG) : StepRes × ItState × PRNG :=
  match randint a b g with
  | .error e => (.err e, .intSt a b true, g)
  | .ok (v, g') => (.val (.int v), .intSt a b true, g')

/-- Apply the sub-iterator replacements accumulated during one union round
(the indices are distinct, so order does not matter). -/
def applyUpdates (its : List ItState) : List (Nat × ItState) → List ItState
  | [] => its
  | (i, st) :: rest => applyUpdates (its.set i st) rest

/-- `sizeOf` of a list member bounds the list's `sizeOf` (termination
helper for the iterator step function). -/
theorem sizeOf_get_lt (l : List ItState) (i : Fin l.length) :
    sizeOf (l.get i) < sizeOf l := by
  induction l with
  | nil => exact absurd i.isLt (by simp)
  | cons a rest ih =>
      match i with
      | ⟨0, _⟩ => simp; omega
      | ⟨j + 1, h⟩ =>
          have := ih ⟨j, by simpa using Nat.lt_of_succ_lt_succ h⟩
          simp at this ⊢
          omega

mutual
/-- One `next()` call on a canonical iterator, translated clause by clause
from the `__iter__` generators in `domain.py`:

* `Int.__iter__`: yield `0` first when `min_value ≤ 0 ≤ max_value`, then
  draw `randint(min_value, max_value)` forever.
* `Boolean.__iter__`: `choice([True, False])` forever.
* `DomainSingleton.__iter__`: yield the element forever.
* `DomainFromIterable.__iter__`: when `is_exhaustible` the body evaluates
  `isinstance(samples, Sequence)` — but `Sequence` is never imported in
  `domain.py`, so the first `next()` raises `NameError`; when not
  exhaustible it is `yield from self.iterable`, yielding the snapshot once
  in order and then stopping.
* `DomainUnion.__iter__`: each round permutes the alternative indices with
  `_random.sample`, then tries them in order; a yield ends the round; a
  `RecursionError` restarts that alternative's iterator and moves on; a
  sub-iterator's `StopIteration` escapes the generator as `RuntimeError`
  (PEP 479); if every alternative signalled `RecursionError`, the round
  raises `RecursionError`.
* `Tuple.__iter__`: advance every component iterator left to right and
  yield the tuple; a component's `StopIteration` escapes as `RuntimeError`
  (PEP 479).
* `DomainLimit.__iter__` is `islice(self.delegate, self.samples_limit)`:
  stop after `samples_limit` yields, otherwise defer to the delegate. -/
def iterNext : ItState → PRNG → StepRes × ItState × PRNG
  | .intSt a b false, g =>
      if a ≤ 0 ∧ 0 ≤ b then (.val (.int 0), .intSt a b true, g) else intDraw a b g
  | .intSt a b true, g => intDraw a b g
  | .boolSt, g =>
      let (i, g') := randNat g 2
      (.val (.bool (i == 0)), .boolSt, g')
  | .singletonSt v, g => (.val v, .singletonSt v, g)
  | .fromItSt l true, g => (.err .nameError, .fromItSt l true, g)
  | .fromItSt [] false, g => (.stop, .fromItSt [] false, g)
  | .fromItSt (v :: rest) false, g => (.val v, .fromItSt rest false, g)
  | .unionSt doms its, g =>
      let (idxs, g') := permSample its.length g
      unionRound doms its [] idxs g'
  | .tupSt its, g =>
      match tupAdvance its g with
      | (.ok vs, its', g') => (.val (.tup vs), .tupSt its', g')
      | (.error e, its', g') => (.err e, .tupSt its', g')
  | .limitSt inner 0, g => (.stop, .limitSt inner 0, g)
  | .limitSt inner (r + 1), g =>
      match iterNext inner g with
      | (.val v, inner', g') => (.val v, .limitSt inner' r, g')
      | (.stop, inner', g') => (.stop, .limitSt inner' (r + 1), g')
      | (.err e, inner', g') => (.err e, .limitSt inner' (r + 1), g')
termination_by st _ => (sizeOf st, 0)
decreasing_by
  all_goals simp_wf
  all_goals first
    | (apply Prod.Lex.right; omega)
    | (apply Prod.Lex.left
       first
         | exact sizeOf_get_lt its ⟨i, h⟩
         | (simp; omega)
         | omega)

/-- One round of `DomainUnion.__iter__` over the permuted index list.
Restarted iterators are accumulated in `upd` and applied at the end of the
round: a permutation never revisits an index, so lookups always hit the
original state. -/
def unionRound (doms : List Dom) (its : List ItState) (upd : List (Nat × ItState)) :
    List Nat → PRNG → StepRes × ItState × PRNG
  | [], g => (.err .recursionError, .unionSt doms (applyUpdates its upd), g)
  | i :: rest, g =>
      if h : i < its.length then
        match iterNext (its.get ⟨i, h⟩) g with
        | (.val v, st', g') =>
            (.val v, .unionSt doms (applyUpdates its ((i, st') :: upd)), g')
        | (.stop, st', g') =>
            (.err .runtimeError, .unionSt doms (applyUpdates its ((i, st') :: upd)), g')
        | (.err .recursionError, _, g') =>
            unionRound doms its ((i, initState (doms.getD i .bool)) :: upd) rest g'
        | (.err e, st', g') =>
            (.err e, .unionSt doms (applyUpdates its ((i, st') :: upd)), g')
      else (.err .runtimeError, .unionSt doms (applyUpdates its upd), g)
termination_by idxs _ => (sizeOf its, idxs.length + 1)
decreasing_by
  all_goals simp_wf
  all_goals first
    | (apply Prod.Lex.right; omega)
    | (apply Prod.Lex.left
       first
         | exact sizeOf_get_lt its ⟨i, h⟩
         | (simp; omega)
         | omega)

/-- `tuple(next(it) for it in iterators)`: advance each component iterator
left to right; the first `StopIteration` becomes `RuntimeError` (PEP 479)
and any other exception propagates. -/
def tupAdvance : List ItState → PRNG → Except PyErr (List Val) × List ItState × PRNG
  | [], g => (.ok [], [], g)
  | st :: rest, g =>
      match iterNext st g with
      | (.val v, st', g') =>
          match tupAdvance rest g' with
          | (.ok vs, rest', g'') => (.ok (v :: vs), st' :: rest', g'')
          | (.error e, rest', g'') => (.error e, st' :: rest', g'')
      | (.stop, st', g') => (.error .runtimeError, st' :: rest, g')
      | (.err e, st', g') => (.error e, st' :: rest, g')
termination_by its _ => (sizeOf its, 0)
decreasing_by
  all_goals simp_wf
  all_goals first
    | (apply Prod.Lex.right; omega)
    | (apply Prod.Lex.left
       first
         | exact sizeOf_get_lt its ⟨i, h⟩
         | (simp; omega)
         | omega)

end

/-- Pull up to `n` samples from a canonical iterator, stopping early when
it raises `StopIteration` or any other exception. -/
def iterTake : ItState → PRNG → Nat → List Val × Term
  | _, _, 0 => ([], .more)
  | st, g, k + 1 =>
      match iterNext st g with
      | (.val v, st', g') =>
          let (vs, t) := iterTake st' g' k
          (v :: vs, t)
      | (.stop, _, _) => ([], .stopped)
      | (.err e, _, _) => ([], .errored e)

/-! ## Recursive domains (`domain.py` lines 281-305) -/

/-- The constructor parameters of a `RecDomain` instance produced by the
factory (`sub_i` and `max_depth`; the step function is shared). -/
structure RecInstance where
  subI : Int
  maxDepth : Int
deriving DecidableEq, Repr

/-- `lambda max_depth= 6: RecDomain(self.fun, sub_i= sub_i, max_depth= max_depth)`:
the factory handed to the user's step function.  `none` models calling the
factory without arguments, so `max_depth` takes its default `6`. -/
def recFactory (subI : Int) : Option Int → RecInstance :=
  fun md => ⟨subI, md.getD 6⟩

/-- A recursive domain `RecDomain(fun, sub_i, max_depth)`.  The user step
function is abstract: it consumes the factory and builds a sub-domain of
some type `D`. -/
structure RecDomainE (D : Type) where
  stepFun : (Option Int → RecInstance) → D
  subI : Int
  maxDepth : Int

/-- The first advance of `iter(rec_domain)` (`RecDomain.__iter__` →
`_samples(self.sub_i + 1)`): `_samples` raises `RecursionError` before
anything else when `sub_i > max_depth`, and otherwise invokes the step
function on the factory and delegates to the sub-domain it returns. -/
def recIterFirst {D : Type} (d : RecDomainE D) : Except PyErr D :=
  let si := d.subI + 1
  if si > d.maxDepth then .error .recursionError
  else .ok (d.stepFun (recFactory si))

/-! ## The `Exists` quantifier (`quantifiers.py` lines 240-279) -/

/-- The outcome `Exists.__call__` yields for one sample, given the single
result the child `Predicate` produced under the extended environment `e`:
a truthy result yields the literal `True`; a `PredicateError` is yielded
as is; otherwise (a `CounterExample`) the for-else clause of the inner
loop yields `CounterExample(env)` with the extended environment. -/
def existsOutcome (e : Env) (r : CheckResult) : CheckResult :=
  if resultTruthy r then .value (.bool true)
  else
    match r with
    | .predicateError ex env' => .predicateError ex env'
    | _ => .counterExample e

/-- `Exists.__call__` (`quantifiers.py` lines 257-279): after the shadowing
check and the `is_exhaustible` check, iterate the domain's `exhaustible`
property and, for every sample, rebind the quantified variable and yield
one outcome computed from the child predicate's single result.  The
generator raises (rather than yielding) when a check or the `exhaustible`
property raises. -/
def existsEval (var : String) (dom : Dom) (pred : PredFun) (env : Env) :
    Except PyErr (List CheckResult) :=
  if (lookupEnv env var).isSome then .error .typeError
  else if !(isExh dom) then .error .typeError
  else
    match exhaustibleProp dom with
    | .error e => .error e
    | .ok samples =>
        .ok (samples.map (fun s =>
          let e := envSet env var s
          existsOutcome e ((predicateCall pred e).headD (.counterExample e))))

/-! ## The process-wide seed (`domain.py` lines 29-41) -/

/-- The mutable module-level state of `domain.py`: the `seed` variable and
the `_random` generator.  All sampling reads and writes only `prng`. -/
structure World where
  prng : PRNG
  seedVar : Nat

/-- `set_seed(new_seed)`: stores the seed and reseeds `_random`, replacing
the whole generator state whatever it was before. -/
def set_seed (s : Nat) (_w : World) : World :=
  { prng := mkPRNG s, seedVar := s }

/-- Draw the first `n` samples from a fresh canonical iterator of `d` in
world `w` (the Python `islice(iter(d), n)`). -/
def drawSamples (d : Dom) (n : Nat) (w : World) : List Val × Term :=
  iterTake (initState d) w.prng n

/-! ## Concrete inputs used by individual theorems -/

/-- How `islice(delegate, n)` transforms the delegate's termination status
when pulled `k` times: past the limit `n`, a still-running delegate is cut
off by `StopIteration`; early stops and exceptions pass through. -/
def limTerm (k n : Nat) (t : Term) : Term :=
  if n < k then (match t with | .more => .stopped | x => x) else t

/-- The predicate `x == 1` over the environment variable `x`. -/
def predEqOne : PredFun := fun e =>
  match lookupEnv e "x" with
  | some (.int n) => .ok (.bool (n == 1))
  | _ => .ok (.bool false)

/-- A predicate that always raises. -/
def predRaise : PredFun := fun _ => .error ⟨7⟩

/-- A predicate that always returns `True`. -/
def predTrue : PredFun := fun _ => .ok (.bool true)

/-- A step function that asks the factory for a default sub-instance and
returns its `max_depth` (used to observe what the factory builds). -/
def recStepProbe : (Option Int → RecInstance) → Int := fun g => (g none).maxDepth

/-! ## Helper lemmas -/

/-- `isExhList` is `List.all` of `isExh`. -/
theorem isExhList_eq_all (ds : List Dom) : isExhList ds = ds.all (fun d => isExh d) := by
  induction ds with
  | nil => simp [isExhList]
  | cons d rest ih => simp [isExhList, isExh, ih]

/-- Pulling `m` times yields at most `m` samples. -/
theorem iterTake_length (st : ItState) (g : PRNG) (m : Nat) :
    (iterTake st g m).1.length ≤ m := by
  induction m generalizing st g with
  | zero => simp [iterTake]
  | succ m ih =>
      simp only [iterTake]
      cases h : iterNext st g with
      | mk res p =>
          cases p with
          | mk st' g' =>
              cases res with
              | val v => simpa using ih st' g'
              | stop => simp
              | err e => simp

/-- `limTerm` commutes with taking one more pull past one more slot. -/
theorem limTerm_succ (k n : Nat) (t : Term) : limTerm (k + 1) (n + 1) t = limTerm k n t := by
  simp [limTerm, Nat.succ_lt_succ_iff]

/-- A delegate's `StopIteration` passes through the limit unchanged. -/
theorem limTerm_stopped (k n : Nat) : limTerm k n .stopped = .stopped := by
  simp [limTerm]

/-- A delegate's exception passes through the limit unchanged. -/
theorem limTerm_errored (k n : Nat) (e : PyErr) : limTerm k n (.errored e) = .errored e := by
  simp [limTerm]

/-- Behaviour of `islice(delegate, n)` against the bare delegate: pulling
`k` samples from the limited iterator yields exactly the delegate's first
`min k n` samples, and terminates by `StopIteration` exactly when the
limit cuts a still-running delegate off. -/
theorem limit_iterTake (k : Nat) :
    ∀ (n : Nat) (st : ItState) (g : PRNG),
      iterTake (.limitSt st n) g k
        = ((iterTake st g (min k n)).1, limTerm k n (iterTake st g (min k n)).2) := by
  induction k with
  | zero => intro n st g; simp [iterTake, limTerm]
  | succ k ih =>
      intro n st g
      match n with
      | 0 => simp [iterTake, iterNext, limTerm]
      | n + 1 =>
          rw [Nat.succ_min_succ]
          simp only [iterTake, iterNext]
          cases h : iterNext st g with
          | mk res p =>
              cases p with
              | mk st' g' =>
                  cases res with
                  | val v => simp [ih, limTerm_succ]
                  | stop => simp [limTerm_stopped]
                  | err e => simp [limTerm_errored]

/-- If requesting every exhaustible iterator in a list of domains
succeeded, every domain in the list was marked exhaustible. -/
theorem exhPropList_ok_isExh : ∀ (ds : List Dom) (ls : List (List Val)),
    exhPropList ds = .ok ls → ∀ d ∈ ds, isExh d = true := by
  intro ds
  induction ds with
  | nil => simp
  | cons d rest ih =>
      intro ls h d' hd'
      rw [exhPropList] at h
      cases hp : exhaustibleProp d with
      | error e => rw [hp] at h; exact absurd h (by simp)
      | ok l =>
          rw [hp] at h
          cases hr : exhPropList rest with
          | error e => rw [hr] at h; exact absurd h (by simp)
          | ok ls' =>
              rcases List.mem_cons.mp hd' with h1 | h2
              · subst h1
                by_contra hex
                rw [exhaustibleProp, if_neg (by simpa using hex)] at hp
                exact absurd hp (by simp)
              · exact ih ls' hr d' h2

/-- `_random.randint(a, b)` with `a ≤ b` succeeds and lands in `[a, b]`. -/
theorem randint_bounds (a b : Int) (g : PRNG) (h : a ≤ b) :
    ∃ v g', randint a b g = .ok (v, g') ∧ a ≤ v ∧ v ≤ b := by
  have hm : ((b - a + 1).toNat : Int) = b - a + 1 := Int.toNat_of_nonneg (by omega)
  have hmpos : 0 < (b - a + 1).toNat := by omega
  refine ⟨a + ((randNat g (b - a + 1).toNat).1 : Int), (randNat g (b - a + 1).toNat).2,
    ?_, by omega, ?_⟩
  · rw [randint, if_neg (by omega)]
  · have hlt : (randNat g (b - a + 1).toNat).1 < (b - a + 1).toNat := by
      simp only [randNat, prngNext]
      exact Nat.mod_lt _ hmpos
    omega

/-- One draw of the `Int` sampling loop stays in `[a, b]`. -/
theorem intDraw_bounds (a b : Int) (g : PRNG) (h : a ≤ b) :
    ∃ w g', intDraw a b g = (.val (.int w), .intSt a b true, g') ∧ a ≤ w ∧ w ≤ b := by
  obtain ⟨v, g', hv, h1, h2⟩ := randint_bounds a b g h
  exact ⟨v, g', by rw [intDraw, hv], h1, h2⟩

/-- Every sample an `Int` canonical iterator yields (from either phase)
lies in `[a, b]`. -/
theorem intTake_bounds (a b : Int) (hab : a ≤ b) :
    ∀ (n : Nat) (lp : Bool) (g : PRNG),
      ∀ v ∈ (iterTake (.intSt a b lp) g n).1, ∃ m, v = Val.int m ∧ a ≤ m ∧ m ≤ b := by
  intro n
  induction n with
  | zero => intro lp g v hv; simp [iterTake] at hv
  | succ n ih =>
      intro lp g v hv
      obtain ⟨w, g', hd, hw1, hw2⟩ := intDraw_bounds a b g hab
      cases lp with
      | true =>
          rw [iterTake] at hv
          rw [show iterNext (.intSt a b true) g = intDraw a b g from by simp [iterNext],
            hd] at hv
          simp at hv
          rcases hv with h1 | h2
          · exact ⟨w, h1, hw1, hw2⟩
          · exact ih true g' v h2
      | false =>
          rw [iterTake] at hv
          by_cases hz : a ≤ 0 ∧ 0 ≤ b
          · rw [show iterNext (.intSt a b false) g
                = (.val (.int 0), .intSt a b true, g) from by
                  rw [iterNext, if_pos hz]] at hv
            simp at hv
            rcases hv with h1 | h2
            · exact ⟨0, h1, hz.1, hz.2⟩
            · exact ih true g v h2
          · rw [show iterNext (.intSt a b false) g = intDraw a b g from by
                  rw [iterNext, if_neg hz], hd] at hv
            simp at hv
            rcases hv with h1 | h2
            · exact ⟨w, h1, hw1, hw2⟩
            · exact ih true g' v h2

/-! ## Claim theorems -/

/-- Claim C1 (refuted; code bug): the spec says an `Exists` node over an
exhaustible domain yields exactly one outcome, stopping at the first
witness, propagating a `PredicateError` immediately, and yielding
`CounterExample(env)` only when the iterator empties without a witness.
The code (`quantifiers.py` `Exists.__call__`) instead attaches the `else`
clause to the inner loop over the child's single result, so it streams one
outcome per sample and never stops early: over the exhaustible domain
`[0, 1]` with the predicate `x == 1`, it yields a `CounterExample` for the
non-witness sample `0` even though the witness `1` follows. -/
theorem exists_streams_every_sample :
    existsEval "x" (Dom.fromIterable [.int 0, .int 1] true) predEqOne []
      = .ok [.counterExample [("x", .int 0)], .value (.bool true)] := by
  simp [existsEval, exhaustibleProp, exhIter, isExh, predEqOne, predicateCall,
        envSet, lookupEnv, existsOutcome, resultTruthy, pyTruthy, pyOrResult]

/-- Claim C2 (refuted; code bug): a union is marked exhaustible exactly
when all its flattened operands are (first conjunct, which does hold), but
a union of exhaustibles does not implement the exhaustive iterator:
`DomainUnion` never overrides `exhaustible_iter`, so requesting the
`exhaustible` property of `Boolean() | Boolean()` raises
`NotImplementedError` instead of returning an iterator. -/
theorem union_flag_without_iterator :
    (∀ a b : Dom, isExh (mkUnion a b)
        = (unionOperands a ++ unionOperands b).all (fun d => isExh d))
    ∧ isExh (mkUnion Dom.bool Dom.bool) = true
    ∧ exhaustibleProp (mkUnion Dom.bool Dom.bool) = .error .notImplementedError := by
  refine ⟨fun a b => ?_, ?_, ?_⟩
  · simp [mkUnion, isExh, isExhList_eq_all]
  · rfl
  · simp [mkUnion, unionOperands, exhaustibleProp, exhIter, isExh, isExhList]

/-- Claim C3 (refuted; code bug): the claim says the canonical iterator of
a domain built from a non-empty finite iterable shuffles a snapshot once
and yields it cyclically forever, whether or not the domain is marked
exhaustible.  In `DomainFromIterable.__iter__` the shuffle-and-cycle
branch runs only when `is_exhaustible` is true, and that branch evaluates
`isinstance(samples, Sequence)` with `Sequence` never imported, so the
first advance raises `NameError`; with `is_exhaustible` false the iterator
yields the elements once, unshuffled, and stops. -/
theorem fromIterable_canonical_divergence :
    iterTake (initState (Dom.fromIterable [.int 1, .int 2] true)) (mkPRNG 0) 5
        = ([], .errored .nameError)
    ∧ iterTake (initState (Dom.fromIterable [.int 1, .int 2] false)) (mkPRNG 0) 5
        = ([.int 1, .int 2], .stopped) := by
  constructor <;> simp [iterTake, iterNext, initState]

/-- Claim C4 counterexample: `Boolean().that(samples_limit=2)` does not
preserve the delegate's `is_exhaustible` flag — `DomainLimit` inherits
`False` and never overrides `exhaustible_iter`, so its `exhaustible`
property raises `TypeError` while the delegate's succeeds. -/
theorem that_does_not_preserve_exhaustible :
    isExh (that Dom.bool 2) ≠ isExh Dom.bool
    ∧ isExh (that Dom.bool 2) = false
    ∧ exhaustibleProp (that Dom.bool 2) = .error .typeError
    ∧ exhaustibleProp Dom.bool = .ok [.bool false, .bool true] := by
  refine ⟨by simp [that, isExh], rfl, ?_, ?_⟩
  · simp [that, exhaustibleProp, exhIter, isExh]
  · simp [exhaustibleProp, exhIter, isExh]

/-- Claim C4 (amended): `d.that(samples_limit=n)` yields at most `n`
values — exactly the first `min k n` values of `d`'s canonical stream when
pulled `k` times — and then terminates by `StopIteration`; but the wrapper
does not preserve exhaustibility: it is always non-exhaustible and its
`exhaustible` property raises `TypeError`. -/
theorem that_limits_canonical_prefix (d : Dom) (n k : Nat) (g : PRNG) :
    iterTake (initState (that d n)) g k
        = ((iterTake (initState d) g (min k n)).1,
           limTerm k n (iterTake (initState d) g (min k n)).2)
    ∧ (iterTake (initState (that d n)) g k).1.length ≤ n
    ∧ isExh (that d n) = false
    ∧ exhaustibleProp (that d n) = .error .typeError := by
  have hinit : initState (that d n) = .limitSt (initState d) n := rfl
  have h := limit_iterTake k n (initState d) g
  refine ⟨by rw [hinit]; exact h, ?_, rfl, ?_⟩
  · rw [hinit, h]
    calc (iterTake (initState d) g (min k n)).1.length
        ≤ min k n := iterTake_length _ _ _
      _ ≤ n := Nat.min_le_right _ _
  · simp [that, exhaustibleProp, exhIter, isExh]

/-- Claim C5 (confirmed): two-run determinism.  For every embedded domain,
seed and sample count, the first `n` samples drawn from a fresh canonical
iterator after `set_seed s` equal those drawn after a second `set_seed s`,
whatever the prior mutable state of either run was: `set_seed` overwrites
the whole generator state and sampling reads no other mutable state. -/
theorem set_seed_two_run_determinism (d : Dom) (s : Nat) (n : Nat) (w1 w2 : World) :
    drawSamples d n (set_seed s w1) = drawSamples d n (set_seed s w2) := rfl

/-- Claim C6 counterexample: for `Tuple(Boolean(), Boolean())`, whose
components are all exhaustible, requesting the exhaustive iterator through
the `exhaustible` property raises `TypeError` instead of succeeding,
because `Tuple` never sets `is_exhaustible`. -/
theorem tuple_exhaustible_property_raises :
    isExhList [Dom.bool, Dom.bool] = true
    ∧ exhaustibleProp (Dom.tup [Dom.bool, Dom.bool]) = .error .typeError := by
  exact ⟨rfl, by simp [exhaustibleProp, isExh]⟩

/-- Claim C6 (amended): a `Tuple` domain is never marked exhaustible, so
its `exhaustible` property always raises `TypeError`, even when every
component is exhaustible; the underlying `exhaustible_iter` method itself,
when each component's exhaustive enumeration is available, yields the
pointwise zip of the component enumerations, terminating with the
shortest one. -/
theorem tuple_exhaustible_iter_zips (ds : List Dom) (ls : List (List Val))
    (h : exhPropList ds = .ok ls) :
    isExh (Dom.tup ds) = false
    ∧ exhaustibleProp (Dom.tup ds) = .error .typeError
    ∧ exhIter (Dom.tup ds) = .ok (zipAll ls)
    ∧ (zipAll ls).length = zipCount ls := by
  have hall : ∀ d ∈ ds, isExh d = true := exhPropList_ok_isExh ds ls h
  have hany : ds.any (fun d => !(isExh d)) = false := by
    rw [List.any_eq_false]
    intro d hd
    simp [hall d hd]
  refine ⟨rfl, by simp [exhaustibleProp, isExh], ?_, by simp [zipAll]⟩
  rw [exhIter, if_neg (by simp [hany]), h]

/-- Witness for claim C6's amended theorem, at the concrete tuple
`Tuple(Boolean(), DomainSingleton(5))`: the component enumerations are
`[False, True]` and `[5]`, and `exhaustible_iter` zips them into the
single pair `(False, 5)` (the singleton component is the shortest). -/
theorem tuple_exhaustible_iter_zips_witness :
    exhPropList [Dom.bool, Dom.singleton (Val.int 5)]
        = .ok [[.bool false, .bool true], [.int 5]]
    ∧ exhIter (Dom.tup [Dom.bool, Dom.singleton (Val.int 5)])
        = .ok [.tup [.bool false, .int 5]] := by
  have h : exhPropList [Dom.bool, Dom.singleton (Val.int 5)]
      = .ok [[.bool false, .bool true], [.int 5]] := by
    simp [exhPropList, exhaustibleProp, exhIter, isExh]
  have h2 := tuple_exhaustible_iter_zips _ _ h
  refine ⟨h, ?_⟩
  rw [h2.2.2.1]
  simp [zipAll, zipCount]
  rfl

/-- Claim C7 (confirmed): for `Int(min_value=a, max_value=b)` with
`a ≤ b`, every value the canonical iterator yields lies in `[a, b]`, and
whenever `a ≤ 0 ≤ b` the first yielded value is exactly `0`. -/
theorem int_canonical_bounds_and_zero_first (a b : Int) (g : PRNG) (n : Nat)
    (hab : a ≤ b) :
    (∀ v ∈ (iterTake (initState (Dom.int a b)) g n).1,
        ∃ m, v = Val.int m ∧ a ≤ m ∧ m ≤ b)
    ∧ (a ≤ 0 → 0 ≤ b → 0 < n →
        ((iterTake (initState (Dom.int a b)) g n).1).head? = some (.int 0)) := by
  constructor
  · exact intTake_bounds a b hab n false g
  · intro h1 h2 hn
    match n, hn with
    | n + 1, _ =>
        rw [show initState (Dom.int a b) = .intSt a b false from rfl]
        rw [iterTake]
        rw [show iterNext (.intSt a b false) g
            = (.val (.int 0), .intSt a b true, g) from by
              rw [iterNext, if_pos ⟨h1, h2⟩]]
        simp

/-- Witness for claim C7 at `Int(min_value=-3, max_value=5)` with two
pulls: the bounds hold and the first sample is `0`. -/
theorem int_canonical_witness :
    (∀ v ∈ (iterTake (initState (Dom.int (-3) 5)) (mkPRNG 1) 2).1,
        ∃ m, v = Val.int m ∧ -3 ≤ m ∧ m ≤ 5)
    ∧ ((iterTake (initState (Dom.int (-3) 5)) (mkPRNG 1) 2).1).head? = some (.int 0) := by
  have h := int_canonical_bounds_and_zero_first (-3) 5 (mkPRNG 1) 2 (by decide)
  exact ⟨h.1, h.2 (by decide) (by decide) (by decide)⟩

/-- Claim C8 (confirmed): `Predicate.__call__` yields exactly one outcome
and never propagates the predicate's exception: a raised exception becomes
`PredicateError(e, env)`, a falsy return becomes `CounterExample(env)`,
and a truthy return is yielded as a truthy (passing) result. -/
theorem predicate_single_outcome (pred : PredFun) (env : Env) :
    (predicateCall pred env).length = 1
    ∧ (∀ e, pred env = .error e → predicateCall pred env = [.predicateError e env])
    ∧ (∀ v, pred env = .ok v → pyTruthy v = false →
        predicateCall pred env = [.counterExample env])
    ∧ (∀ v, pred env = .ok v → pyTruthy v = true →
        predicateCall pred env = [.value v] ∧ resultTruthy (.value v) = true) := by
  refine ⟨?_, ?_, ?_, ?_⟩
  · cases h : pred env <;> simp [predicateCall, h]
  · intro e he; simp [predicateCall, he]
  · intro v hv ht; simp [predicateCall, hv, pyOrResult, ht]
  · intro v hv ht; simp [predicateCall, hv, pyOrResult, ht, resultTruthy]

/-- Witness for claim C8 at a predicate that always raises exception `7`
on the empty environment: the single outcome is the wrapped error. -/
theorem predicate_single_outcome_witness :
    predicateCall predRaise [] = [.predicateError ⟨7⟩ []]
    ∧ (predicateCall predRaise []).length = 1 := by
  have h := predicate_single_outcome predRaise []
  exact ⟨h.2.1 ⟨7⟩ rfl, h.1⟩

/-- Claim C9 (confirmed): advancing `RecDomain(fun, sub_i, max_depth)`
raises `RecursionError` before invoking the step function exactly when
`sub_i + 1 > max_depth`; otherwise the step function receives a factory
whose sub-instances carry `sub_i + 1` and whose `max_depth` defaults to
`6` regardless of the parent's, unless passed explicitly. -/
theorem recdomain_depth_guard_and_factory {D : Type} (d : RecDomainE D) :
    (recIterFirst d = .error .recursionError ↔ d.maxDepth < d.subI + 1)
    ∧ (d.subI + 1 ≤ d.maxDepth →
        recIterFirst d = .ok (d.stepFun (recFactory (d.subI + 1))))
    ∧ recFactory (d.subI + 1) none = ⟨d.subI + 1, 6⟩
    ∧ (∀ m : Int, recFactory (d.subI + 1) (some m) = ⟨d.subI + 1, m⟩) := by
  refine ⟨?_, ?_, rfl, fun m => rfl⟩
  · rw [recIterFirst]
    constructor
    · intro h
      by_contra hc
      rw [if_neg (by omega)] at h
      exact absurd h (by simp)
    · intro h
      rw [if_pos (by omega)]
  · intro h
    rw [recIterFirst, if_neg (by omega)]

/-- Witness for claim C9: with a probing step function, a fresh instance
(`sub_i=0, max_depth=6`) advances into the step function, whose factory
default-builds a depth-6 sub-instance; an instance at `sub_i=6,
max_depth=6` raises the depth signal instead. -/
theorem recdomain_depth_guard_witness :
    recIterFirst (⟨recStepProbe, 0, 6⟩ : RecDomainE Int) = .ok 6
    ∧ recIterFirst (⟨recStepProbe, 6, 6⟩ : RecDomainE Int) = .error .recursionError := by
  have h1 := recdomain_depth_guard_and_factory (⟨recStepProbe, 0, 6⟩ : RecDomainE Int)
  have h2 := recdomain_depth_guard_and_factory (⟨recStepProbe, 6, 6⟩ : RecDomainE Int)
  constructor
  · have := h1.2.1 (by decide)
    rw [this]
    simp [recStepProbe, recFactory]
  · exact h2.1.mpr (by decide)

/-- Claim C10 (confirmed): `CounterExample` and `PredicateError` convert
to boolean `False`, and the single outcome a `Predicate` yields is truthy
exactly when the predicate function returned a truthy value without
raising; hence the runner's truthiness test never classifies a
counterexample or a predicate error as a pass. -/
theorem outcomes_falsy_classification :
    (∀ env : Env, doTestClassify (.counterExample env) = false)
    ∧ (∀ (e : Exc) (env : Env), doTestClassify (.predicateError e env) = false)
    ∧ (∀ (pred : PredFun) (env : Env) (r : CheckResult),
        predicateCall pred env = [r] →
          (doTestClassify r = true ↔ ∃ v, pred env = .ok v ∧ pyTruthy v = true)) := by
  refine ⟨fun env => rfl, fun e env => rfl, ?_⟩
  intro pred env r hr
  cases hp : pred env with
  | error e =>
      rw [predicateCall, hp] at hr
      simp at hr
      subst hr
      simp [doTestClassify, resultTruthy, hp]
  | ok v =>
      simp only [predicateCall, hp] at hr
      by_cases ht : pyTruthy v = true
      · rw [show pyOrResult v (.counterExample env) = .value v from by
            rw [pyOrResult]; exact if_pos ht] at hr
        simp at hr
        subst hr
        simp only [doTestClassify, resultTruthy]
        exact ⟨fun _ => ⟨v, rfl, ht⟩, fun _ => ht⟩
      · rw [show pyOrResult v (.counterExample env) = .counterExample env from by
            rw [pyOrResult]; exact if_neg ht] at hr
        simp at hr
        subst hr
        simp only [doTestClassify, resultTruthy]
        constructor
        · intro hfalse
          exact absurd hfalse (by simp)
        · rintro ⟨v2, hv2, ht2⟩
          injection hv2 with hv3
          subst hv3
          exact absurd ht2 ht

/-- Witness for claim C10: a `CounterExample` and a `PredicateError` are
classified as failing, while the outcome of a predicate returning `True`
is classified as passing. -/
theorem outcomes_falsy_classification_witness :
    doTestClassify (.counterExample []) = false
    ∧ doTestClassify (.predicateError ⟨7⟩ []) = false
    ∧ doTestClassify (.value (.bool true)) = true := by
  have h := outcomes_falsy_classification
  refine ⟨h.1 [], h.2.1 ⟨7⟩ [], ?_⟩
  have h3 := h.2.2 predTrue [] (.value (.bool true))
    (by simp [predicateCall, predTrue, pyOrResult, pyTruthy])
  exact h3.mpr ⟨.bool true, rfl, rfl⟩

end PyPbt
